import Mathlib

/-!
Verification development for the Source Pattern Compliance Engine
(`src/tools/validationChecker.ts` and `src/tools/fileAnalyzer.ts`).

File text is modelled as `List Char`.  JavaScript regular-expression
matching for the six fixed detector patterns (and for the import pattern
of the file analyzer) is embedded by hand, pattern by pattern, following
the leftmost-position / first-alternative / lazy-and-greedy-quantifier
semantics of the concrete regexes involved.  `String.prototype.match`
without the `g` flag returns `[fullMatch, group1, ...]`; the model keeps
that shape in `MRes` (full match plus the list of capture-group values,
`none` for a group that did not participate).
-/

namespace SPCE

abbrev Str := List Char

/-- JavaScript word character for `\b` and `\w`: ASCII `[A-Za-z0-9_]`. -/
def isWordChar (c : Char) : Bool :=
  c.isAlpha || c.isDigit || c == '_'

/-- JavaScript `\s`: whitespace including unicode space separators. -/
def isSpaceJS (c : Char) : Bool :=
  c == ' ' || c == '\t' || c == '\n' || c == '\r' || c == '\x0b' || c == '\x0c' ||
  c == '\u00a0' || c == '\u1680' ||
  (Nat.ble 0x2000 c.toNat && Nat.ble c.toNat 0x200a) ||
  c == '\u2028' || c == '\u2029' || c == '\u202f' || c == '\u205f' ||
  c == '\u3000' || c == '\ufeff'

/-- JavaScript line terminators; `.` (without the `s` flag) matches any
character that is not one of these. -/
def isLineTerm (c : Char) : Bool :=
  c == '\n' || c == '\r' || c == '\u2028' || c == '\u2029'

/-- Case-sensitive list prefix test. -/
def csPrefix : Str → Str → Bool
  | [], _ => true
  | _ :: _, [] => false
  | a :: w, b :: s => (a == b) && csPrefix w s

/-- Case-insensitive list prefix test (ASCII folding, as the `/i` flag on
the ASCII-only words involved). -/
def ciPrefix : Str → Str → Bool
  | [], _ => true
  | _ :: _, [] => false
  | a :: w, b :: s => (a.toLower == b.toLower) && ciPrefix w s

/-- Does `needle` occur as a contiguous substring of `hay`?  This is
JavaScript `hay.includes(needle)`. -/
def containsSub : Str → Str → Bool
  | [], n => csPrefix n []
  | c :: t, n => csPrefix n (c :: t) || containsSub t n

/-- JavaScript `content.split('\n')`: always at least one (possibly
empty) line; a trailing newline yields a trailing empty line. -/
def splitNl : Str → List Str
  | [] => [[]]
  | c :: t =>
    if c == '\n' then [] :: splitNl t
    else
      match splitNl t with
      | l :: ls => (c :: l) :: ls
      | [] => [[c]]

/-- JavaScript `String.prototype.trim`: strip whitespace from both ends. -/
def trimJS (s : Str) : Str :=
  ((s.dropWhile isSpaceJS).reverse.dropWhile isSpaceJS).reverse

/-- JavaScript `Array.prototype.findIndex` (with `-1` modelled as `none`). -/
def firstIdx (p : Str → Bool) : List Str → Option Nat
  | [] => none
  | l :: ls => if p l then some 0 else (firstIdx p ls).map (fun i => i + 1)

/-- Result of a successful (non-global) JavaScript regex match: the full
matched text and the capture-group values in order (`none` when a group
did not participate in the match). -/
structure MRes where
  full : Str
  groups : List (Option Str)
deriving DecidableEq, Repr

/-- The array `String.prototype.match` returns: full match first, then
the capture groups. -/
def matchElems (r : MRes) : List (Option Str) :=
  some r.full :: r.groups

/-- Word boundary `\b` between a preceding character (none at the start
of the input) and the rest of the input. -/
def boundaryAt (prev : Option Char) (s : Str) : Bool :=
  (match prev with | some c => isWordChar c | none => false) !=
  (match s with | c :: _ => isWordChar c | [] => false)

/-- True when the rest of the input starts with a non-word character or
is empty (word boundary right after a word character). -/
def nonWordStart : Str → Bool
  | [] => true
  | c :: _ => !isWordChar c

/-- First alternative of the list that matches case-insensitively at the
start of `s`; the capture is the original-case slice of `s`. -/
def tryAltsCI : List Str → Str → Option Str
  | [], _ => none
  | w :: ws, s => if ciPrefix w s then some (s.take w.length) else tryAltsCI ws s

/-- Lazy `.*?` followed by an alternation: find the smallest number of
non-line-terminator characters to skip so that one of the alternatives
matches (first alternative in pattern order), returning the skip count
and the capture. -/
def lazyScan2 (alts : List Str) : Str → Option (Nat × Str)
  | [] => (tryAltsCI alts []).map (fun cap => (0, cap))
  | c :: t =>
    match tryAltsCI alts (c :: t) with
    | some cap => some (0, cap)
    | none =>
      if isLineTerm c then none
      else
        match lazyScan2 alts t with
        | some kc => some (kc.1 + 1, kc.2)
        | none => none

/-- Field-name words of detector 1 (first capture group alternatives). -/
def set1 : List Str :=
  ["email".data, "password".data, "phone".data, "name".data, "address".data,
   "zip".data, "postal".data, "code".data, "username".data, "url".data]

/-- Validation keywords of detector 1 (second capture group alternatives). -/
def set2 : List Str :=
  ["validate".data, "validation".data, "valid".data, "invalid".data,
   "pattern".data, "regex".data, "match".data, "test".data]

/-- Matcher for detector 1 at one position:
`\b(email|...|url)\b.*?(validate|...|test)` with the `i` flag.  The
first-group words are pairwise non-prefix, so at most one alternative
can match at a given position; the lazy gap cannot cross a line
terminator. -/
def p1At (prev : Option Char) (s : Str) : Option MRes :=
  if boundaryAt prev s then
    match tryAltsCI set1 s with
    | some w1 =>
      let rest := s.drop w1.length
      if nonWordStart rest then
        match lazyScan2 set2 rest with
        | some kc => some ⟨s.take (w1.length + kc.1 + kc.2.length), [some w1, some kc.2]⟩
        | none => none
      else none
    | none => none
  else none

/-- Matcher for detectors 2 and 3 at one position:
`\.NAME\(\s*\/[^/]+\/\s*\)` where NAME is `test` or `match`.  The
greedy `\s*` runs and the greedy `[^/]+` body are deterministic here
because the character that must follow each run is never a member of
the repeated class. -/
def pSlashAt (nm : Str) (s : Str) : Option MRes :=
  let pre := '.' :: nm ++ ['(']
  if csPrefix pre s then
    let r1 := (s.drop pre.length).dropWhile isSpaceJS
    match r1 with
    | '/' :: r2 =>
      let body := r2.takeWhile (fun c => c != '/')
      if body.isEmpty then none
      else
        match r2.drop body.length with
        | '/' :: r3 =>
          let r4 := r3.dropWhile isSpaceJS
          match r4 with
          | ')' :: _ => some ⟨s.take (s.length - r4.length + 1), []⟩
          | _ => none
        | _ => none
    | _ => none
  else none

/-- Matcher for detector 4 at one position: the literal `new RegExp(`. -/
def p4At (s : Str) : Option MRes :=
  if csPrefix "new RegExp(".data s then some ⟨"new RegExp(".data, []⟩ else none

/-- String-mutation method names of detector 5, in pattern order
(`substring` before `substr`, `replace` before `replaceAll`). -/
def p5methods : List Str :=
  ["substring".data, "substr".data, "slice".data, "trim".data, "replace".data,
   "replaceAll".data, "padStart".data, "padEnd".data, "toLowerCase".data,
   "toUpperCase".data]

/-- Try the method alternatives in order; an alternative only succeeds
when the literal `(` follows it (this is the backtracking that makes
`.replaceAll(` match the `replaceAll` alternative, not `replace`). -/
def tryMethods : List Str → Str → Option Str
  | [], _ => none
  | m :: ms, s => if csPrefix (m ++ ['(']) s then some m else tryMethods ms s

/-- Matcher for detector 5 at one position: `\.(substring|...|toUpperCase)\(`. -/
def p5At (s : Str) : Option MRes :=
  match s with
  | '.' :: t =>
    match tryMethods p5methods t with
    | some m => some ⟨'.' :: (m ++ ['(']), [some m]⟩
    | none => none
  | _ => none

/-- Validation-function names of detector 6, in pattern order
(`validate` before `validateField`). -/
def p6words : List Str :=
  ["validation".data, "validator".data, "validate".data, "validateField".data,
   "isValid".data]

/-- Continuation `\s*=\s*function` of detector 6's first branch,
returning the number of characters it consumes. -/
def p6ACont (s : Str) : Option Nat :=
  let r1 := s.dropWhile isSpaceJS
  match r1 with
  | '=' :: r2 =>
    let r3 := r2.dropWhile isSpaceJS
    if csPrefix "function".data r3 then some (s.length - r3.length + 8) else none
  | _ => none

/-- Try the detector-6 name alternatives in order; on a failing
continuation the engine falls through to the next alternative. -/
def tryP6Words : List Str → Str → Option (Str × Nat)
  | [], _ => none
  | w :: ws, s =>
    if csPrefix w s then
      match p6ACont (s.drop w.length) with
      | some k => some (w, w.length + k)
      | none => tryP6Words ws s
    else tryP6Words ws s

/-- Matcher for detector 6 at one position:
`\b(validation|validator|validate|validateField|isValid)\s*=\s*function|=>\s*{`.
The alternation is top-level: the second branch has no capture, so on a
second-branch match group 1 is `undefined` (`none`). -/
def p6At (prev : Option Char) (s : Str) : Option MRes :=
  match (if boundaryAt prev s then tryP6Words p6words s else none) with
  | some wk => some ⟨s.take wk.2, [some wk.1]⟩
  | none =>
    if csPrefix "=>".data s then
      let r := (s.drop 2).dropWhile isSpaceJS
      match r with
      | '\x7b' :: _ => some ⟨s.take (s.length - r.length + 1), [none]⟩
      | _ => none
    else none

/-- Leftmost-match driver: try the position matcher at every position,
left to right, carrying the previous character for `\b`. -/
def scanAt (f : Option Char → Str → Option MRes) : Option Char → Str → Option MRes
  | prev, [] => f prev []
  | prev, c :: t =>
    match f prev (c :: t) with
    | some r => some r
    | none => scanAt f (some c) t

/-- First match of detector 1 in the whole text. -/
def jsMatch1 (content : Str) : Option MRes := scanAt p1At none content

/-- First match of detector 2 (`.test(/…/)`) in the whole text. -/
def jsMatch2 (content : Str) : Option MRes :=
  scanAt (fun _ s => pSlashAt "test".data s) none content

/-- First match of detector 3 (`.match(/…/)`) in the whole text. -/
def jsMatch3 (content : Str) : Option MRes :=
  scanAt (fun _ s => pSlashAt "match".data s) none content

/-- First match of detector 4 (`new RegExp(`) in the whole text. -/
def jsMatch4 (content : Str) : Option MRes :=
  scanAt (fun _ s => p4At s) none content

/-- First match of detector 5 (string-mutation call) in the whole text. -/
def jsMatch5 (content : Str) : Option MRes :=
  scanAt (fun _ s => p5At s) none content

/-- First match of detector 6 (custom validation function) in the whole text. -/
def jsMatch6 (content : Str) : Option MRes := scanAt p6At none content

/-- One entry of the fixed `VALIDATION_ISSUES` list: the source text of
the regex (`issue.pattern.toString()`), the message, the severity, and
the embedded matcher for the pattern. -/
structure Detector where
  patStr : String
  message : String
  severity : String
  matcher : Str → Option MRes

/-- Detector 1: field-name / validation-keyword co-occurrence. -/
def detector1 : Detector :=
  ⟨"/\\b(email|password|phone|name|address|zip|postal|code|username|url)\\b.*?(validate|validation|valid|invalid|pattern|regex|match|test)/i",
   "Contains field validation that might need ValidationService", "medium", jsMatch1⟩

/-- Detector 2: direct regex `test()` call. -/
def detector2 : Detector :=
  ⟨"/\\.test\\(\\s*\\/[^/]+\\/\\s*\\)/",
   "Using regex test() directly instead of ValidationService", "high", jsMatch2⟩

/-- Detector 3: direct regex `match()` call. -/
def detector3 : Detector :=
  ⟨"/\\.match\\(\\s*\\/[^/]+\\/\\s*\\)/",
   "Using regex match() directly instead of ValidationService", "high", jsMatch3⟩

/-- Detector 4: direct `RegExp` construction. -/
def detector4 : Detector :=
  ⟨"/new RegExp\\(/",
   "Creating RegExp directly instead of using ValidationService", "high", jsMatch4⟩

/-- Detector 5: string-mutation method call. -/
def detector5 : Detector :=
  ⟨"/\\.(substring|substr|slice|trim|replace|replaceAll|padStart|padEnd|toLowerCase|toUpperCase)\\(/",
   "String manipulation that might need FormatterService", "low", jsMatch5⟩

/-- Detector 6: locally defined validation-like function. -/
def detector6 : Detector :=
  ⟨"/\\b(validation|validator|validate|validateField|isValid)\\s*=\\s*function|=>\\s*\x7b/",
   "Custom validation function that might duplicate ValidationService functionality",
   "medium", jsMatch6⟩

/-- The fixed, ordered six-detector set `VALIDATION_ISSUES`. -/
def VALIDATION_ISSUES : List Detector :=
  [detector1, detector2, detector3, detector4, detector5, detector6]

/-- One reported issue, as pushed by `checkFile`. -/
structure Issue where
  patStr : String
  message : String
  severity : String
  line : Nat
  content : Str
  suggestion : String
deriving DecidableEq, Repr

/-- The suggestion generator `getSuggestion` (its unused `issue`
parameter is dropped). -/
def getSuggestion (m : Str) (usesValidationService usesFormatterService : Bool) : String :=
  if containsSub m ".test(".data then
    "Use ValidationService.createValidator() or a specific validator from @/lib/validation instead of regex tests"
  else if containsSub m ".match(".data then
    "Use ValidationService.createValidator() or a specific validator from @/lib/validation instead of regex matching"
  else if containsSub m "trim".data || containsSub m "replace".data ||
          containsSub m "substring".data then
    "Consider using FormatterService.formatValue() for consistent string formatting"
  else
    "Consider using the appropriate method from " ++
      (if usesValidationService then "" else "ValidationService or ") ++
      (if usesFormatterService then "" else "FormatterService ") ++ "instead"

/-- The elements `for (const match of matches)` iterates over for one
detector: the full match followed by the capture-group values when the
pattern matched, nothing otherwise. -/
def detectorElems (d : Detector) (content : Str) : List (Option Str) :=
  match d.matcher content with
  | some r => matchElems r
  | none => []

/-- The text `line.includes(match)` searches for: the element itself,
or the string `undefined` when the element is an `undefined` capture
group (`String.includes` stringifies its argument). -/
def needleOf : Option Str → Str
  | some m => m
  | none => "undefined".data

/-- Process one element of the match array: find the first line that
contains it, and either push one issue or — for an `undefined` group on
a found line — throw from `match.includes` inside `getSuggestion`. -/
def emitElem (lines : List Str) (d : Detector) (usesVS usesFS : Bool)
    (e : Option Str) : Except String (Option Issue) :=
  match firstIdx (fun l => containsSub l (needleOf e)) lines with
  | some i =>
    match e with
    | some m =>
      Except.ok (some ⟨d.patStr, d.message, d.severity, i + 1,
        trimJS (lines.getD i []), getSuggestion m usesVS usesFS⟩)
    | none => Except.error "Cannot read properties of undefined (reading includes)"
  | none => Except.ok none

/-- Process the whole match array of one detector, in order; a thrown
error aborts the remaining elements. -/
def emitList (lines : List Str) (d : Detector) (usesVS usesFS : Bool) :
    List (Option Str) → Except String (List Issue)
  | [] => Except.ok []
  | e :: es =>
    match emitElem lines d usesVS usesFS e with
    | Except.error s => Except.error s
    | Except.ok oi =>
      match emitList lines d usesVS usesFS es with
      | Except.error s => Except.error s
      | Except.ok rest => Except.ok (oi.toList ++ rest)

/-- Run the detector list in order, concatenating the issues; a thrown
error aborts the remaining detectors. -/
def buildAll (lines : List Str) (content : Str) (usesVS usesFS : Bool) :
    List Detector → Except String (List Issue)
  | [] => Except.ok []
  | d :: ds =>
    match emitList lines d usesVS usesFS (detectorElems d content) with
    | Except.error s => Except.error s
    | Except.ok is1 =>
      match buildAll lines content usesVS usesFS ds with
      | Except.error s => Except.error s
      | Except.ok is2 => Except.ok (is1 ++ is2)

/-- The issue-collection loop of `checkFile` over `VALIDATION_ISSUES`
(the source recomputes `content.split('\n')` per element; the value is
always the same, so it is hoisted here). -/
def buildIssues (content : Str) (usesVS usesFS : Bool) : Except String (List Issue) :=
  buildAll (splitNl content) content usesVS usesFS VALIDATION_ISSUES

/-- Result of `checkFile`: the success record, or the catch-all error
record `{ path, error }`. -/
inductive CheckResult where
  | ok (path : String) (usesValidationImport usesValidationService usesFormatterService : Bool)
      (issues : List Issue) (suggestedFix : Option String)
  | err (path : String) (error : String)
deriving DecidableEq, Repr

/-- The suggested-import string attached to files with issues that do
not already reference the helper module. -/
def importFix : String :=
  "import \x7b ValidationService, FormatterService \x7d from \"@/lib/validation\";"

/-- The `checkFile` function; the file read is modelled as an
`Except`-valued input. -/
def checkFile (path : String) (read : Except String Str) : CheckResult :=
  match read with
  | Except.error e => CheckResult.err path ("Error checking file: " ++ e)
  | Except.ok content =>
    let uvi := containsSub content "@/lib/validation".data
    let uvs := containsSub content "ValidationService".data
    let ufs := containsSub content "FormatterService".data
    match buildIssues content uvs ufs with
    | Except.error e => CheckResult.err path ("Error checking file: " ++ e)
    | Except.ok issues =>
      CheckResult.ok path uvi uvs ufs issues
        (if !issues.isEmpty && !uvi then some importFix else none)

/-- The filter predicate `result.issueCount > 0` (an error record has
no `issueCount`, and `undefined > 0` is false). -/
def CheckResult.hasIssues : CheckResult → Bool
  | CheckResult.ok _ _ _ _ issues _ => !issues.isEmpty
  | CheckResult.err _ _ => false

/-- The `issueCount` field of a success record (0 for an error record,
which is never consulted after the filter). -/
def CheckResult.issueCount : CheckResult → Nat
  | CheckResult.ok _ _ _ _ issues _ => issues.length
  | CheckResult.err _ _ => 0

/-- The `issues` field of a success record. -/
def CheckResult.issuesOf : CheckResult → List Issue
  | CheckResult.ok _ _ _ _ issues _ => issues
  | CheckResult.err _ _ => []

/-- The `path` field. -/
def CheckResult.pathOf : CheckResult → String
  | CheckResult.ok p _ _ _ _ _ => p
  | CheckResult.err p _ => p

/-- The `suggestedFix` field of a success record. -/
def CheckResult.fixOf : CheckResult → Option String
  | CheckResult.ok _ _ _ _ _ fx => fx
  | CheckResult.err _ _ => none

/-- Stable insertion step for the descending `issueCount` sort: an
element passes over exactly the strictly greater counts, so equal
counts keep their original relative order, as the stable
`Array.prototype.sort` with comparator `(a, b) => b.issueCount - a.issueCount`. -/
def insertByCount (x : CheckResult) : List CheckResult → List CheckResult
  | [] => [x]
  | y :: ys =>
    if x.issueCount < y.issueCount then y :: insertByCount x ys else x :: y :: ys

/-- Stable sort of `filesWithIssues` by `issueCount` descending. -/
def sortByCountDesc : List CheckResult → List CheckResult
  | [] => []
  | x :: xs => insertByCount x (sortByCountDesc xs)

/-- One `mostProblematicFiles` entry. -/
structure Offender where
  path : String
  issueCount : Nat
deriving DecidableEq, Repr

/-- One per-file `detail` entry. -/
structure FileDetail where
  path : String
  issues : List Issue
  suggestedFix : Option String
deriving DecidableEq, Repr

/-- The summary object serialized into the response. -/
structure Summary where
  filesScanned : Nat
  filesWithIssues : Nat
  totalIssues : Nat
  highSeverityIssues : Nat
  mostProblematicFiles : List Offender
  detail : List FileDetail
deriving DecidableEq, Repr

/-- The aggregation of `runValidationCheckerTool` over the per-file
results, with `rel` standing for `path.relative(projectRoot, ·)`.  In
the source the in-place sort happens after `totalIssues` is reduced and
before the summary object is built, so the high-severity reduce, the
slice and the detail map all read the sorted array; the counts do not
depend on the order. -/
def summarize (rel : String → String) (results : List CheckResult) : Summary :=
  let fwi := results.filter CheckResult.hasIssues
  let totalIssues := fwi.foldl (fun t f => t + f.issueCount) 0
  let sorted := sortByCountDesc fwi
  { filesScanned := results.length
    filesWithIssues := fwi.length
    totalIssues := totalIssues
    highSeverityIssues :=
      sorted.foldl (fun c f => c + (f.issuesOf.filter (fun i => i.severity == "high")).length) 0
    mostProblematicFiles := (sorted.take 5).map (fun f => ⟨rel f.pathOf, f.issueCount⟩)
    detail := sorted.map (fun f => ⟨rel f.pathOf, f.issuesOf, f.fixOf⟩) }

/-- The scan: check every selected file (path plus read outcome) in
list order — `Promise.all` keeps results index-aligned with `files` —
then aggregate. -/
def runValidationCheckerTool (rel : String → String)
    (files : List (String × Except String Str)) : Summary :=
  summarize rel (files.map (fun f => checkFile f.1 f.2))

/-- Did the read of this file succeed? -/
def readOk : String × Except String Str → Bool
  | (_, Except.ok _) => true
  | (_, Except.error _) => false

/-- The per-file task of the scan, by original index. -/
def taskAt (files : List (String × Except String Str)) (i : Nat) : CheckResult :=
  checkFile (files.getD i ("", Except.error "unscheduled")).1
    (files.getD i ("", Except.error "unscheduled")).2

/-- The results in completion order: the tasks finish in the order
given by `order`, each carrying its original index. -/
def completionResults (files : List (String × Except String Str))
    (order : List Nat) : List (Nat × CheckResult) :=
  order.map (fun i => (i, taskAt files i))

/-- `Promise.all` semantics: slot `j` of the result array receives the
result keyed to original index `j`, whatever the completion order. -/
def assemble (n : Nat) (pairs : List (Nat × CheckResult)) : List (Option CheckResult) :=
  (List.range n).map (fun j => (pairs.find? (fun p => p.1 == j)).map (fun p => p.2))

/-- Collapse the filled slots. -/
def gather (l : List (Option CheckResult)) : List CheckResult :=
  l.filterMap id

/-- The scan with an explicit per-file completion order. -/
def runValidationCheckerSched (rel : String → String)
    (files : List (String × Except String Str)) (order : List Nat) : Summary :=
  summarize rel (gather (assemble files.length (completionResults files order)))

/-- Tail of the file analyzer's import pattern,
`from\s+['"]@\/lib\/validation['"]`, at the current position.  The
greedy `\s+` run is deterministic because a quote is not whitespace. -/
def p7Tail (s : Str) : Bool :=
  csPrefix "from".data s &&
    (match s.drop 4 with
     | c :: r2 =>
       isSpaceJS c &&
         (match r2.dropWhile isSpaceJS with
          | q :: r4 =>
            (q == '\x27' || q == '\x22') && csPrefix "@/lib/validation".data r4 &&
              (match r4.drop 16 with
               | q2 :: _ => q2 == '\x27' || q2 == '\x22'
               | [] => false)
          | [] => false)
     | [] => false)

/-- `.*` before the tail: skip any number of non-line-terminator
characters, trying the tail at every stop. -/
def dotStarTail : Str → Bool
  | [] => p7Tail []
  | c :: t => p7Tail (c :: t) || (!isLineTerm c && dotStarTail t)

/-- After at least one whitespace character: keep consuming `\s` or
switch to the `.*` segment. -/
def auxWs : Str → Bool
  | [] => dotStarTail []
  | c :: t => dotStarTail (c :: t) || (isSpaceJS c && auxWs t)

/-- `\s+` then `.*` then the tail. -/
def wsPlusTail : Str → Bool
  | [] => false
  | c :: t => isSpaceJS c && auxWs t

/-- Whole import pattern `import\s+.*from\s+['"]@\/lib\/validation['"]`
at one position. -/
def p7At (s : Str) : Bool :=
  csPrefix "import".data s && wsPlusTail (s.drop 6)

/-- Existence-of-a-match driver for a boolean position matcher. -/
def scanBool (f : Str → Bool) : Str → Bool
  | [] => f []
  | c :: t => f (c :: t) || scanBool f t

/-- Does the file analyzer's helper-module import pattern match the
text anywhere (`validationImportMatches.length > 0`)? -/
def importPatternFound (content : Str) : Bool :=
  scanBool p7At content

/-- The two service-usage flags of the file analyzer's
`analyzeValidationUsage` result (the method lists and issue notes that
the same import gate guards are not needed by the properties below). -/
structure UsageAnalysis where
  usesValidationService : Bool
  usesFormatterService : Bool
deriving DecidableEq, Repr

/-- Flag-setting logic of `analyzeValidationUsage`: both flags stay
false unless the import pattern matched; under the gate each flag is
the presence of the service token. -/
def analyzeValidationUsage (content : Str) : UsageAnalysis :=
  if importPatternFound content then
    { usesValidationService := containsSub content "ValidationService".data
      usesFormatterService := containsSub content "FormatterService".data }
  else
    { usesValidationService := false, usesFormatterService := false }

/-- Is this match-array element found in some line (the predicate under
which `checkFile` reaches the push or the throw for the element)? -/
def elemFound (lines : List Str) (e : Option Str) : Bool :=
  lines.any (fun l => containsSub l (needleOf e))

/-- Reference count for the amended claim C1: per detector, the number
of match-array elements that occur in some line. -/
def expectedCount (content : Str) : Nat :=
  (VALIDATION_ISSUES.map
    (fun d => ((detectorElems d content).filter (elemFound (splitNl content))).length)).sum

/-- The unsorted `filesWithIssues` list of a scan, in original file order. -/
def filesWithIssuesOf (files : List (String × Except String Str)) : List CheckResult :=
  (files.map (fun f => checkFile f.1 f.2)).filter CheckResult.hasIssues

def c1content : Str := "email valid".data

def c1demoIssues : List Issue :=
  match buildIssues c1content false false with
  | Except.ok l => l
  | Except.error _ => []

def c2files : List (String × Except String Str) :=
  [("components/Demo.tsx", Except.ok "a.match(/x/)\nb.trim()".data)]

def c3content : Str := "first\nx.trim()".data

def c3issue : Issue :=
  match emitElem (splitNl c3content) detector5 false false (some ".trim(".data) with
  | Except.ok (some i) => i
  | _ => ⟨"", "", "", 0, [], ""⟩

def c6files : List (String × Except String Str) :=
  [("a.ts", Except.ok "x.trim()".data), ("b.ts", Except.error "ENOENT")]

def c7content : Str := "const a = ValidationService; const b = FormatterService;".data

def c8content : Str := "if (x.test(/^[a-z]+$/)) \x7b\x7d".data

def c9content : Str := "const a = ValidationService; b.trim()".data

def c9issues : List Issue :=
  (checkFile "f" (Except.ok c9content)).issuesOf

def c10content : Str := ".test(\n/x/ )".data

example : SPCE.jsMatch1 "email valid".data =
    some ⟨"email valid".data, [some "email".data, some "valid".data]⟩ := by decide

example : SPCE.jsMatch1 "emails validate".data = none := by decide

example : SPCE.jsMatch1 "email\nvalidate".data = none := by decide

example : SPCE.jsMatch2 "if (x.test(/^[a-z]+$/)) \x7b\x7d".data =
    some ⟨".test(/^[a-z]+$/)".data, []⟩ := by decide

example : SPCE.jsMatch2 ".test(//)".data = none := by decide

example : SPCE.jsMatch3 "a.match(/x/)\nb.trim()".data =
    some ⟨".match(/x/)".data, []⟩ := by decide

example : SPCE.jsMatch5 "a.match(/x/)\nb.trim()".data =
    some ⟨".trim(".data, [some "trim".data]⟩ := by decide

example : SPCE.jsMatch5 "x.replaceAll(y)".data =
    some ⟨".replaceAll(".data, [some "replaceAll".data]⟩ := by decide

example : SPCE.jsMatch6 "const f = () => \x7b\x7d".data =
    some ⟨"=> \x7b".data, [none]⟩ := by decide

example : SPCE.jsMatch6 "validateField = function x".data =
    some ⟨"validateField = function".data, [some "validateField".data]⟩ := by decide

example : SPCE.jsMatch2 ".test(\n/x/ )".data =
    some ⟨".test(\n/x/ )".data, []⟩ := by decide

example : (SPCE.runValidationCheckerTool (fun s => s)
    [("f", Except.ok "a.match(/x/)\nb.trim()".data)]).totalIssues = 3 := by decide

example : (SPCE.runValidationCheckerTool (fun s => s)
    [("f", Except.ok "a.match(/x/)\nb.trim()".data)]).highSeverityIssues = 1 := by decide

example : (SPCE.runValidationCheckerTool (fun s => s)
    [("f", Except.ok "a.match(/x/)\nb.trim()".data)]).mostProblematicFiles =
    [⟨"f", 3⟩] := by decide

example : (SPCE.checkFile "f" (Except.ok "if (x.test(/^[a-z]+$/)) \x7b\x7d".data)).issuesOf.map
    SPCE.Issue.severity = ["high"] := by decide

example : (SPCE.checkFile "f" (Except.ok "email valid".data)).issuesOf.length = 3 := by decide

example : SPCE.runValidationCheckerTool (fun s => s)
    [("f.ts", Except.error "EACCES: permission denied")] = ⟨1, 0, 0, 0, [], []⟩ := by decide

example : SPCE.importPatternFound "import \x7b V \x7d from \"@/lib/validation\"".data = true := by
  decide

example : SPCE.importPatternFound "const a = ValidationService".data = false := by decide

example : SPCE.analyzeValidationUsage "const a = ValidationService; FormatterService".data =
    ⟨false, false⟩ := by decide

theorem splitNl_ne_nil (s : Str) : splitNl s ≠ [] := by
  cases s with
  | nil => simp [splitNl]
  | cons c t =>
    simp only [splitNl]
    split
    · simp
    · split <;> simp

theorem mem_of_csPrefix : ∀ (n s : Str), csPrefix n s = true → ∀ c ∈ n, c ∈ s := by
  intro n
  induction n with
  | nil => intro s _ c hc; exact absurd hc (List.not_mem_nil c)
  | cons a w ih =>
    intro s h c hc
    cases s with
    | nil => simp [csPrefix] at h
    | cons b t =>
      simp only [csPrefix, Bool.and_eq_true, beq_iff_eq] at h
      rcases List.mem_cons.1 hc with rfl | hc'
      · rw [h.1]; exact List.mem_cons_self b t
      · exact List.mem_cons_of_mem _ (ih t h.2 c hc')

theorem mem_of_containsSub : ∀ (hay n : Str), containsSub hay n = true → ∀ c ∈ n, c ∈ hay := by
  intro hay
  induction hay with
  | nil => intro n h c hc; exact mem_of_csPrefix n [] h c hc
  | cons b t ih =>
    intro n h c hc
    simp only [containsSub, Bool.or_eq_true] at h
    rcases h with h | h
    · exact mem_of_csPrefix n (b :: t) h c hc
    · exact List.mem_cons_of_mem _ (ih n h c hc)

theorem splitNl_mem_no_nl (s : Str) : ∀ l ∈ splitNl s, '\n' ∉ l := by
  induction s with
  | nil => intro l hl; simp [splitNl] at hl; simp [hl]
  | cons c t ih =>
    intro l hl
    simp only [splitNl] at hl
    split at hl
    · rcases List.mem_cons.1 hl with rfl | hl'
      · simp
      · exact ih l hl'
    · rename_i hc
      split at hl
      · rename_i l0 ls heq
        rcases List.mem_cons.1 hl with rfl | hl'
        · intro hmem
          rcases List.mem_cons.1 hmem with h1 | h1
          · rw [← h1] at hc; exact hc (by decide)
          · exact ih l0 (heq ▸ List.mem_cons_self l0 ls) h1
        · exact ih l (heq ▸ List.mem_cons_of_mem l0 hl')
      · rename_i heq
        exact absurd heq (splitNl_ne_nil t)

theorem getD_mem_of_lt : ∀ (ls : List Str) (i : Nat), i < ls.length → ls.getD i [] ∈ ls := by
  intro ls
  induction ls with
  | nil => intro i h; simp at h
  | cons l t ih =>
    intro i h
    cases i with
    | zero => simp
    | succ j =>
      simp only [List.getD_cons_succ]
      exact List.mem_cons_of_mem _ (ih j (Nat.lt_of_succ_lt_succ h))

theorem firstIdx_some_spec :
    ∀ (p : Str → Bool) (ls : List Str) (i : Nat), firstIdx p ls = some i →
      i < ls.length ∧ p (ls.getD i []) = true ∧ ∀ j, j < i → p (ls.getD j []) = false := by
  intro p ls
  induction ls with
  | nil => intro i h; simp [firstIdx] at h
  | cons l t ih =>
    intro i h
    simp only [firstIdx] at h
    split at h
    · rename_i hp
      cases h
      refine ⟨Nat.succ_pos _, hp, ?_⟩
      intro j hj; exact absurd hj (Nat.not_lt_zero j)
    · rename_i hp
      cases hfi : firstIdx p t with
      | none => rw [hfi] at h; simp at h
      | some i' =>
        rw [hfi] at h
        simp only [Option.map_some'] at h
        cases h
        obtain ⟨h1, h2, h3⟩ := ih i' hfi
        refine ⟨Nat.succ_lt_succ h1, by simpa [List.getD_cons_succ] using h2, ?_⟩
        intro j hj
        cases j with
        | zero => simpa using Bool.not_eq_true (p l) |>.mp hp
        | succ j' =>
          simpa [List.getD_cons_succ] using h3 j' (Nat.lt_of_succ_lt_succ hj)

theorem firstIdx_eq_none (p : Str → Bool) :
    ∀ (ls : List Str), (∀ l ∈ ls, p l = false) → firstIdx p ls = none := by
  intro ls
  induction ls with
  | nil => intro _; rfl
  | cons l t ih =>
    intro h
    simp only [firstIdx]
    rw [h l (List.mem_cons_self l t)]
    simp [ih (fun x hx => h x (List.mem_cons_of_mem l hx))]

theorem firstIdx_isSome_eq_any (p : Str → Bool) :
    ∀ (ls : List Str), (firstIdx p ls).isSome = ls.any p := by
  intro ls
  induction ls with
  | nil => rfl
  | cons l t ih =>
    simp only [firstIdx, List.any_cons]
    split
    · rename_i hp; simp [hp]
    · rename_i hp
      have hpl : p l = false := by revert hp; cases p l <;> simp
      rw [hpl]
      simp only [Bool.false_or]
      rw [← ih]
      cases hfi : firstIdx p t <;> simp

theorem emitElem_ok_some_shape (lines : List Str) (d : Detector) (uvs ufs : Bool)
    (m : Str) (issue : Issue)
    (h : emitElem lines d uvs ufs (some m) = Except.ok (some issue)) :
    ∃ i, firstIdx (fun l => containsSub l m) lines = some i ∧
      issue = ⟨d.patStr, d.message, d.severity, i + 1, trimJS (lines.getD i []),
               getSuggestion m uvs ufs⟩ := by
  simp only [emitElem] at h
  split at h
  · rename_i i hfi
    refine ⟨i, hfi, ?_⟩
    injection h with h1
    injection h1 with h2
    exact h2.symm
  · simp at h

theorem emitElem_ok_isSome (lines : List Str) (d : Detector) (uvs ufs : Bool)
    (e : Option Str) (oi : Option Issue)
    (h : emitElem lines d uvs ufs e = Except.ok oi) :
    oi.isSome = elemFound lines e := by
  simp only [emitElem] at h
  split at h
  · rename_i i hfi
    have hany := firstIdx_isSome_eq_any (fun l => containsSub l (needleOf e)) lines
    cases e with
    | some m =>
      injection h with h1
      rw [← h1]
      simp only [Option.isSome_some, elemFound]
      rw [← hany, hfi]
      rfl
    | none => simp at h
  · rename_i hfi
    have hany := firstIdx_isSome_eq_any (fun l => containsSub l (needleOf e)) lines
    injection h with h1
    rw [← h1]
    simp only [Option.isSome_none, elemFound]
    rw [← hany, hfi]
    rfl

theorem emitElem_ok_some_sugg (lines : List Str) (d : Detector) (uvs ufs : Bool)
    (e : Option Str) (issue : Issue)
    (h : emitElem lines d uvs ufs e = Except.ok (some issue)) :
    ∃ m : Str, issue.suggestion = getSuggestion m uvs ufs := by
  simp only [emitElem] at h
  split at h
  · cases e with
    | some m =>
      refine ⟨m, ?_⟩
      injection h with h1
      injection h1 with h2
      rw [← h2]
    | none => simp at h
  · simp at h

theorem emitList_ok_length (lines : List Str) (d : Detector) (uvs ufs : Bool) :
    ∀ (es : List (Option Str)) (is : List Issue),
      emitList lines d uvs ufs es = Except.ok is →
      is.length = (es.filter (elemFound lines)).length := by
  intro es
  induction es with
  | nil =>
    intro is h
    injection h with h1
    rw [← h1]
    rfl
  | cons e es ih =>
    intro is h
    simp only [emitList] at h
    cases hem : emitElem lines d uvs ufs e with
    | error s => rw [hem] at h; cases h
    | ok oi =>
      rw [hem] at h
      cases her : emitList lines d uvs ufs es with
      | error s => rw [her] at h; cases h
      | ok rest =>
        rw [her] at h
        injection h with h1
        rw [← h1]
        have hfound := emitElem_ok_isSome lines d uvs ufs e oi hem
        have hlen := ih rest her
        cases oi with
        | some i0 =>
          have : elemFound lines e = true := by rw [← hfound]; rfl
          simp [List.filter_cons, this, hlen]
        | none =>
          have : elemFound lines e = false := by rw [← hfound]; rfl
          simp [List.filter_cons, this, hlen]

theorem emitList_ok_sugg (lines : List Str) (d : Detector) (uvs ufs : Bool) :
    ∀ (es : List (Option Str)) (is : List Issue),
      emitList lines d uvs ufs es = Except.ok is →
      ∀ issue ∈ is, ∃ m : Str, issue.suggestion = getSuggestion m uvs ufs := by
  intro es
  induction es with
  | nil =>
    intro is h issue hmem
    injection h with h1
    rw [← h1] at hmem
    simp at hmem
  | cons e es ih =>
    intro is h issue hmem
    simp only [emitList] at h
    cases hem : emitElem lines d uvs ufs e with
    | error s => rw [hem] at h; cases h
    | ok oi =>
      rw [hem] at h
      cases her : emitList lines d uvs ufs es with
      | error s => rw [her] at h; cases h
      | ok rest =>
        rw [her] at h
        injection h with h1
        rw [← h1] at hmem
        rcases List.mem_append.1 hmem with hl | hr
        · cases oi with
          | some i0 =>
            simp only [Option.toList_some, List.mem_singleton] at hl
            rw [hl]
            exact emitElem_ok_some_sugg lines d uvs ufs e i0 hem
          | none => simp at hl
        · exact ih rest her issue hr

theorem buildAll_ok_length (lines : List Str) (content : Str) (uvs ufs : Bool) :
    ∀ (ds : List Detector) (is : List Issue),
      buildAll lines content uvs ufs ds = Except.ok is →
      is.length =
        (ds.map (fun d => ((detectorElems d content).filter (elemFound lines)).length)).sum := by
  intro ds
  induction ds with
  | nil =>
    intro is h
    injection h with h1
    rw [← h1]
    rfl
  | cons d ds ih =>
    intro is h
    simp only [buildAll] at h
    cases hem : emitList lines d uvs ufs (detectorElems d content) with
    | error s => rw [hem] at h; cases h
    | ok is1 =>
      rw [hem] at h
      cases hba : buildAll lines content uvs ufs ds with
      | error s => rw [hba] at h; cases h
      | ok is2 =>
        rw [hba] at h
        injection h with h1
        rw [← h1]
        simp only [List.map_cons, List.sum_cons, List.length_append]
        rw [emitList_ok_length lines d uvs ufs _ is1 hem, ih is2 hba]

theorem buildAll_ok_sugg (lines : List Str) (content : Str) (uvs ufs : Bool) :
    ∀ (ds : List Detector) (is : List Issue),
      buildAll lines content uvs ufs ds = Except.ok is →
      ∀ issue ∈ is, ∃ m : Str, issue.suggestion = getSuggestion m uvs ufs := by
  intro ds
  induction ds with
  | nil =>
    intro is h issue hmem
    injection h with h1
    rw [← h1] at hmem
    simp at hmem
  | cons d ds ih =>
    intro is h issue hmem
    simp only [buildAll] at h
    cases hem : emitList lines d uvs ufs (detectorElems d content) with
    | error s => rw [hem] at h; cases h
    | ok is1 =>
      rw [hem] at h
      cases hba : buildAll lines content uvs ufs ds with
      | error s => rw [hba] at h; cases h
      | ok is2 =>
        rw [hba] at h
        injection h with h1
        rw [← h1] at hmem
        rcases List.mem_append.1 hmem with hl | hr
        · exact emitList_ok_sugg lines d uvs ufs _ is1 hem issue hl
        · exact ih is2 hba issue hr

theorem insertByCount_perm (x : CheckResult) :
    ∀ l : List CheckResult, List.Perm (insertByCount x l) (x :: l) := by
  intro l
  induction l with
  | nil => exact List.Perm.refl _
  | cons y ys ih =>
    simp only [insertByCount]
    split
    · exact ((ih.cons y).trans (List.Perm.swap x y ys))
    · exact List.Perm.refl _

theorem sortByCountDesc_perm :
    ∀ l : List CheckResult, List.Perm (sortByCountDesc l) l := by
  intro l
  induction l with
  | nil => exact List.Perm.refl _
  | cons x xs ih =>
    exact (insertByCount_perm x (sortByCountDesc xs)).trans (ih.cons x)

theorem insertByCount_pairwise (x : CheckResult) :
    ∀ l : List CheckResult,
      List.Pairwise (fun a b => b.issueCount ≤ a.issueCount) l →
      List.Pairwise (fun a b => b.issueCount ≤ a.issueCount) (insertByCount x l) := by
  intro l
  induction l with
  | nil => intro _; simp [insertByCount]
  | cons y ys ih =>
    intro hp
    rw [List.pairwise_cons] at hp
    simp only [insertByCount]
    split
    · rename_i hlt
      rw [List.pairwise_cons]
      refine ⟨?_, ih hp.2⟩
      intro z hz
      have hz' := ((insertByCount_perm x ys).mem_iff).1 hz
      rcases List.mem_cons.1 hz' with rfl | hz''
      · exact Nat.le_of_lt hlt
      · exact hp.1 z hz''
    · rename_i hge
      rw [List.pairwise_cons]
      refine ⟨?_, List.pairwise_cons.2 hp⟩
      intro z hz
      rcases List.mem_cons.1 hz with rfl | hz'
      · exact Nat.le_of_not_lt hge
      · exact Nat.le_trans (hp.1 z hz') (Nat.le_of_not_lt hge)

theorem sortByCountDesc_pairwise :
    ∀ l : List CheckResult,
      List.Pairwise (fun a b => b.issueCount ≤ a.issueCount) (sortByCountDesc l) := by
  intro l
  induction l with
  | nil => simp [sortByCountDesc]
  | cons x xs ih => exact insertByCount_pairwise x (sortByCountDesc xs) ih

theorem insertByCount_filter_count (x : CheckResult) (n : Nat) :
    ∀ l : List CheckResult,
      (insertByCount x l).filter (fun r => r.issueCount == n) =
      (x :: l).filter (fun r => r.issueCount == n) := by
  intro l
  induction l with
  | nil => rfl
  | cons y ys ih =>
    simp only [insertByCount]
    split
    · rename_i hlt
      by_cases hy : y.issueCount = n
      · by_cases hx : x.issueCount = n
        · exact absurd (hx ▸ hlt) (by rw [hy]; exact Nat.lt_irrefl n)
        · simp [List.filter_cons, hy, hx, ih]
      · simp only [List.filter_cons]
        by_cases hx : x.issueCount = n
        · simp [hy, hx, ih, List.filter_cons]
        · simp [hy, hx, ih, List.filter_cons]
    · rfl

theorem sortByCountDesc_filter_count (n : Nat) :
    ∀ l : List CheckResult,
      (sortByCountDesc l).filter (fun r => r.issueCount == n) =
      l.filter (fun r => r.issueCount == n) := by
  intro l
  induction l with
  | nil => rfl
  | cons x xs ih =>
    simp only [sortByCountDesc]
    rw [insertByCount_filter_count x n (sortByCountDesc xs)]
    simp only [List.filter_cons]
    rw [ih]

theorem hasIssues_pos (f : CheckResult) (h : CheckResult.hasIssues f = true) :
    0 < f.issueCount := by
  cases f with
  | ok p a b c issues fx =>
    simp only [CheckResult.hasIssues, Bool.not_eq_true'] at h
    simp only [CheckResult.issueCount]
    cases issues with
    | nil => simp [List.isEmpty] at h
    | cons i t => simp
  | err p e => simp [CheckResult.hasIssues] at h

theorem find?_completion (t : Nat → CheckResult) :
    ∀ (order : List Nat) (j : Nat), j ∈ order →
      (order.map (fun i => (i, t i))).find? (fun p => p.1 == j) = some (j, t j) := by
  intro order
  induction order with
  | nil => intro j hj; simp at hj
  | cons i os ih =>
    intro j hj
    simp only [List.map_cons, List.find?_cons]
    by_cases hij : i = j
    · subst hij; simp
    · have hbe : (i == j) = false := by simpa using hij
      rw [hbe]
      have hjos : j ∈ os := by
        rcases List.mem_cons.1 hj with h | h
        · exact absurd h.symm hij
        · exact h
      exact ih j hjos

theorem assemble_completion_eq (files : List (String × Except String Str))
    (order : List Nat) (h : ∀ j, j < files.length → j ∈ order) :
    assemble files.length (completionResults files order) =
      (List.range files.length).map (fun j => some (taskAt files j)) := by
  unfold assemble completionResults
  apply List.map_congr_left
  intro j hj
  rw [find?_completion (taskAt files) order j (h j (List.mem_range.1 hj))]
  rfl

theorem gather_map_some (l : List CheckResult) : gather (l.map some) = l := by
  induction l with
  | nil => rfl
  | cons x xs ih => simp [gather, List.filterMap_cons] at ih ⊢

theorem range_map_taskAt :
    ∀ files : List (String × Except String Str),
      (List.range files.length).map (fun j => taskAt files j) =
        files.map (fun f => checkFile f.1 f.2) := by
  intro files
  induction files with
  | nil => rfl
  | cons f fs ih =>
    simp only [List.length_cons, List.range_succ_eq_map, List.map_cons, List.map_map]
    congr 1

theorem sched_eq_plain (rel : String → String)
    (files : List (String × Except String Str)) (order : List Nat)
    (h : List.Perm order (List.range files.length)) :
    runValidationCheckerSched rel files order = runValidationCheckerTool rel files := by
  unfold runValidationCheckerSched runValidationCheckerTool
  have hmem : ∀ j, j < files.length → j ∈ order := by
    intro j hj
    exact h.mem_iff.2 (List.mem_range.2 hj)
  rw [assemble_completion_eq files order hmem]
  have hmm : (List.range files.length).map (fun j => some (taskAt files j)) =
      ((List.range files.length).map (fun j => taskAt files j)).map some := by
    rw [List.map_map]; rfl
  rw [hmm, gather_map_some, range_map_taskAt]

theorem readOk_false_no_issues (f : String × Except String Str)
    (h : readOk f = false) : CheckResult.hasIssues (checkFile f.1 f.2) = false := by
  obtain ⟨p, r⟩ := f
  cases r with
  | ok c => simp [readOk] at h
  | error e => simp [checkFile, CheckResult.hasIssues]

theorem filter_map_readOk (files : List (String × Except String Str)) :
    ((files.filter readOk).map (fun f => checkFile f.1 f.2)).filter CheckResult.hasIssues =
      (files.map (fun f => checkFile f.1 f.2)).filter CheckResult.hasIssues := by
  induction files with
  | nil => rfl
  | cons f fs ih =>
    cases hro : readOk f with
    | true =>
      have h1 : List.filter readOk (f :: fs) = f :: List.filter readOk fs := by
        simp [List.filter_cons, hro]
      rw [h1, List.map_cons, List.map_cons]
      simp only [List.filter_cons]
      rw [ih]
    | false =>
      have h1 : List.filter readOk (f :: fs) = List.filter readOk fs := by
        simp [List.filter_cons, hro]
      rw [h1, List.map_cons]
      simp only [List.filter_cons]
      rw [readOk_false_no_issues f hro]
      rw [if_neg (by simp)]
      exact ih

/-- Claim C1 is false as stated: on the single-line file `email valid`
detector 1 has exactly one full matched substring (`email valid`), yet
three Issues are emitted — the extra two come from the capture-group
values `email` and `valid`, which are not full matched substrings of
the pattern. -/
theorem claim1_counterexample :
    jsMatch1 c1content =
      some ⟨"email valid".data, [some "email".data, some "valid".data]⟩ ∧
    (checkFile "f" (Except.ok c1content)).issuesOf.length = 3 ∧
    ¬(checkFile "f" (Except.ok c1content)).issuesOf.length = 1 := by
  decide

/-- Claim C1 (amended): when the issue collection finishes without a
thrown error, the Rule Engine emits exactly one Issue per element of
each detector's match array — the full matched text followed by each
capture-group value — that occurs in some source line; occurrences of
the pattern beyond its first match contribute nothing. -/
theorem claim1_issue_per_match_element (content : Str) (uvs ufs : Bool)
    (issues : List Issue)
    (h : buildIssues content uvs ufs = Except.ok issues) :
    issues.length = expectedCount content :=
  buildAll_ok_length (splitNl content) content uvs ufs VALIDATION_ISSUES issues h

/-- Witness for the amended C1 at the concrete file `email valid`. -/
theorem claim1_witness : c1demoIssues.length = expectedCount c1content :=
  claim1_issue_per_match_element c1content false false c1demoIssues (by rfl)

/-- Claim C2 is false as stated: the scan of a file with one
`.match(/x/)` call and one `.trim()` call reports `totalIssues = 3`,
not 2 (the string-manipulation detector emits one Issue for the full
match `.trim(` and another for the captured method name `trim`). -/
theorem claim2_counterexample :
    ¬((runValidationCheckerTool (fun s => s) c2files).totalIssues = 2 ∧
      (runValidationCheckerTool (fun s => s) c2files).mostProblematicFiles =
        [⟨"components/Demo.tsx", 2⟩]) := by
  decide

/-- Claim C2 (amended): the scan of that file yields `filesScanned = 1`,
`filesWithIssues = 1`, `totalIssues = 3`, exactly one high-severity
issue (the `.match`), and top offenders `[{path, issueCount: 3}]`. -/
theorem claim2_scan_totals :
    (runValidationCheckerTool (fun s => s) c2files).filesScanned = 1 ∧
    (runValidationCheckerTool (fun s => s) c2files).filesWithIssues = 1 ∧
    (runValidationCheckerTool (fun s => s) c2files).totalIssues = 3 ∧
    (runValidationCheckerTool (fun s => s) c2files).highSeverityIssues = 1 ∧
    (runValidationCheckerTool (fun s => s) c2files).mostProblematicFiles =
      [⟨"components/Demo.tsx", 3⟩] := by
  decide

/-- Claim C3: every emitted Issue reports as its line number the
1-based index of the first line of the file that contains the matched
substring — even when an earlier unrelated line coincidentally
contains it — and its content is that line's text trimmed. -/
theorem claim3_first_line_reported (content : Str) (d : Detector) (uvs ufs : Bool)
    (m : Str) (issue : Issue)
    (h : emitElem (splitNl content) d uvs ufs (some m) = Except.ok (some issue)) :
    ∃ i, i < (splitNl content).length ∧ issue.line = i + 1 ∧
      containsSub ((splitNl content).getD i []) m = true ∧
      (∀ j, j < i → containsSub ((splitNl content).getD j []) m = false) ∧
      issue.content = trimJS ((splitNl content).getD i []) := by
  obtain ⟨i, hfi, hshape⟩ := emitElem_ok_some_shape (splitNl content) d uvs ufs m issue h
  obtain ⟨hlen, hp, hprev⟩ := firstIdx_some_spec (fun l => containsSub l m) (splitNl content) i hfi
  exact ⟨i, hlen, by rw [hshape], hp, hprev, by rw [hshape]⟩

/-- Witness for C3 at a concrete two-line file. -/
theorem claim3_witness :
    ∃ i, i < (splitNl c3content).length ∧ c3issue.line = i + 1 ∧
      containsSub ((splitNl c3content).getD i []) ".trim(".data = true ∧
      (∀ j, j < i → containsSub ((splitNl c3content).getD j []) ".trim(".data = false) ∧
      c3issue.content = trimJS ((splitNl c3content).getD i []) :=
  claim3_first_line_reported c3content detector5 false false ".trim(".data c3issue (by rfl)

/-- Claim C4 is false as stated: a scan whose only file fails to read
produces `filesScanned = 1` and an empty report otherwise — in
particular the per-file detail is empty, so the read-error text appears
nowhere in the report. -/
theorem claim4_counterexample :
    runValidationCheckerTool (fun s => s)
        [("f.ts", Except.error "EACCES: permission denied")] =
      ⟨1, 0, 0, 0, [], []⟩ := by
  decide

/-- Claim C4 (amended): a file whose read fails is counted in
`filesScanned` but contributes nothing to any other part of the report:
every other field equals that of the scan restricted to the readable
files, so the error text is dropped rather than surfaced in detail. -/
theorem claim4_read_error_dropped (rel : String → String)
    (files : List (String × Except String Str)) :
    (runValidationCheckerTool rel files).filesScanned = files.length ∧
    (runValidationCheckerTool rel files).filesWithIssues =
      (runValidationCheckerTool rel (files.filter readOk)).filesWithIssues ∧
    (runValidationCheckerTool rel files).totalIssues =
      (runValidationCheckerTool rel (files.filter readOk)).totalIssues ∧
    (runValidationCheckerTool rel files).highSeverityIssues =
      (runValidationCheckerTool rel (files.filter readOk)).highSeverityIssues ∧
    (runValidationCheckerTool rel files).mostProblematicFiles =
      (runValidationCheckerTool rel (files.filter readOk)).mostProblematicFiles ∧
    (runValidationCheckerTool rel files).detail =
      (runValidationCheckerTool rel (files.filter readOk)).detail := by
  have hrw := filter_map_readOk files
  simp only [runValidationCheckerTool, summarize, hrw, List.length_map]
  simp

/-- Claim C5: `mostProblematicFiles` is the 5-prefix of the stable
descending sort of `filesWithIssues` (a permutation, pairwise sorted by
`issueCount`, preserving per-count original order), reduced to
relative path and count; its length is `min 5 |filesWithIssues|` and it
never contains a zero-issue file. -/
theorem claim5_topOffenders (rel : String → String)
    (files : List (String × Except String Str)) :
    ∃ s : List CheckResult,
      List.Perm s (filesWithIssuesOf files) ∧
      List.Pairwise (fun a b => b.issueCount ≤ a.issueCount) s ∧
      (∀ n : Nat, s.filter (fun r => r.issueCount == n) =
        (filesWithIssuesOf files).filter (fun r => r.issueCount == n)) ∧
      (runValidationCheckerTool rel files).mostProblematicFiles =
        (s.take 5).map (fun f => ⟨rel f.pathOf, f.issueCount⟩) ∧
      (runValidationCheckerTool rel files).mostProblematicFiles.length =
        min 5 (filesWithIssuesOf files).length ∧
      ∀ e ∈ (runValidationCheckerTool rel files).mostProblematicFiles,
        0 < e.issueCount := by
  refine ⟨sortByCountDesc (filesWithIssuesOf files),
    sortByCountDesc_perm _, sortByCountDesc_pairwise _,
    fun n => sortByCountDesc_filter_count n _, ?_, ?_, ?_⟩
  · simp only [runValidationCheckerTool, summarize, filesWithIssuesOf]
  · simp only [runValidationCheckerTool, summarize, filesWithIssuesOf,
      List.length_map, List.length_take]
    rw [(sortByCountDesc_perm _).length_eq]
  · intro e he
    simp only [runValidationCheckerTool, summarize] at he
    obtain ⟨f, hf, hfe⟩ := List.mem_map.1 he
    have hfs : f ∈ sortByCountDesc ((files.map (fun f => checkFile f.1 f.2)).filter
        CheckResult.hasIssues) := List.mem_of_mem_take hf
    have hfw := (sortByCountDesc_perm _).mem_iff.1 hfs
    have hhi := (List.mem_filter.1 hfw).2
    rw [← hfe]
    exact hasIssues_pos f hhi

/-- Claim C6: the report is deterministic — any two completion orders
of the per-file tasks over the same file list and contents produce the
same aggregated report. -/
theorem claim6_deterministic (rel : String → String)
    (files : List (String × Except String Str)) (o1 o2 : List Nat)
    (h1 : List.Perm o1 (List.range files.length))
    (h2 : List.Perm o2 (List.range files.length)) :
    runValidationCheckerSched rel files o1 = runValidationCheckerSched rel files o2 := by
  rw [sched_eq_plain rel files o1 h1, sched_eq_plain rel files o2 h2]

/-- Witness for C6: two opposite completion orders over a two-file scan. -/
theorem claim6_witness :
    runValidationCheckerSched (fun s => s) c6files [1, 0] =
      runValidationCheckerSched (fun s => s) c6files [0, 1] :=
  claim6_deterministic (fun s => s) c6files [1, 0] [0, 1] (by decide) (by decide)

/-- Claim C7: in the Structural Extractor the service-usage flags are
gated on the helper module's import pattern: each flag equals the
conjunction of the import-pattern match and the token presence, so both
flags are false whenever the import pattern does not match, token or
not. -/
theorem claim7_import_gate (content : Str) :
    ((analyzeValidationUsage content).usesValidationService =
      (importPatternFound content && containsSub content "ValidationService".data)) ∧
    ((analyzeValidationUsage content).usesFormatterService =
      (importPatternFound content && containsSub content "FormatterService".data)) ∧
    (importPatternFound content = false →
      (analyzeValidationUsage content).usesValidationService = false ∧
      (analyzeValidationUsage content).usesFormatterService = false) := by
  unfold analyzeValidationUsage
  split
  · rename_i hg
    simp [hg]
  · rename_i hg
    have hng : importPatternFound content = false := by
      revert hg; cases importPatternFound content <;> simp
    simp [hng]

/-- Witness for C7: both tokens present but no import pattern. -/
theorem claim7_witness :
    (analyzeValidationUsage c7content).usesValidationService = false ∧
    (analyzeValidationUsage c7content).usesFormatterService = false :=
  (claim7_import_gate c7content).2.2 (by decide)

/-- Claim C8: the file `if (x.test(/^[a-z]+$/)) {}` yields exactly one
Issue, of severity high, whose suggestion names the
ValidationService.createValidator alternative and the helper module. -/
theorem claim8_single_high_issue :
    (checkFile "components/Input.tsx" (Except.ok c8content)).issuesOf.length = 1 ∧
    (checkFile "components/Input.tsx" (Except.ok c8content)).issuesOf.map Issue.severity =
      ["high"] ∧
    (checkFile "components/Input.tsx" (Except.ok c8content)).issuesOf.map
      (fun i => containsSub i.suggestion.data "ValidationService.createValidator".data) =
      [true] ∧
    (checkFile "components/Input.tsx" (Except.ok c8content)).issuesOf.map
      (fun i => containsSub i.suggestion.data "@/lib/validation".data) = [true] := by
  decide

/-- Claim C9: in the compliance checker the per-file service flags are
pure token presence — no import gate — and exactly these flags reach
the suggestion generator for every emitted issue. -/
theorem claim9_flags_token_presence (path : String) (content : Str) (p : String)
    (uvi uvs ufs : Bool) (issues : List Issue) (fx : Option String)
    (h : checkFile path (Except.ok content) = CheckResult.ok p uvi uvs ufs issues fx) :
    uvs = containsSub content "ValidationService".data ∧
    ufs = containsSub content "FormatterService".data ∧
    ∀ issue ∈ issues, ∃ m : Str, issue.suggestion =
      getSuggestion m (containsSub content "ValidationService".data)
        (containsSub content "FormatterService".data) := by
  simp only [checkFile] at h
  cases hb : buildIssues content (containsSub content "ValidationService".data)
      (containsSub content "FormatterService".data) with
  | error e => rw [hb] at h; simp at h
  | ok is' =>
    rw [hb] at h
    injection h with h1 h2 h3 h4 h5 h6
    refine ⟨h3.symm, h4.symm, ?_⟩
    intro issue hmem
    rw [← h5] at hmem
    exact buildAll_ok_sugg (splitNl content) content _ _ VALIDATION_ISSUES is' hb issue hmem

/-- Witness for C9 at a file that mentions ValidationService but does
not reference the helper module. -/
theorem claim9_witness :
    true = containsSub c9content "ValidationService".data ∧
    false = containsSub c9content "FormatterService".data ∧
    ∀ issue ∈ c9issues, ∃ m : Str, issue.suggestion =
      getSuggestion m (containsSub c9content "ValidationService".data)
        (containsSub c9content "FormatterService".data) :=
  claim9_flags_token_presence "f" c9content "f" false true false c9issues
    (some importFix) (by rfl)

/-- Claim C10: a matched substring that spans a newline is contained in
no single line, so no Issue is emitted for it and the scan continues;
conversely every emitted Issue's matched substring occurs inside one
source line. -/
theorem claim10_multiline_match_no_issue (content : Str) (d : Detector)
    (uvs ufs : Bool) (m : Str) :
    ('\n' ∈ m → emitElem (splitNl content) d uvs ufs (some m) = Except.ok none) ∧
    (∀ issue : Issue,
      emitElem (splitNl content) d uvs ufs (some m) = Except.ok (some issue) →
      ∃ l ∈ splitNl content, containsSub l m = true) := by
  constructor
  · intro hnl
    have hall : ∀ l ∈ splitNl content, containsSub l m = false := by
      intro l hl
      cases hcc : containsSub l m with
      | false => rfl
      | true =>
        exact absurd (mem_of_containsSub l m hcc '\n' hnl) (splitNl_mem_no_nl content l hl)
    simp only [emitElem, needleOf]
    rw [firstIdx_eq_none _ _ hall]
  · intro issue h
    obtain ⟨i, hfi, _⟩ := emitElem_ok_some_shape (splitNl content) d uvs ufs m issue h
    obtain ⟨hlen, hp, _⟩ := firstIdx_some_spec (fun l => containsSub l m) (splitNl content) i hfi
    exact ⟨(splitNl content).getD i [], getD_mem_of_lt _ i hlen, hp⟩

/-- Witness for C10: detector 2's full match on this file spans the
newline, and no Issue results. -/
theorem claim10_witness :
    emitElem (splitNl c10content) detector2 false false (some c10content) =
      Except.ok none :=
  (claim10_multiline_match_no_issue c10content detector2 false false c10content).1 (by decide)

end SPCE
